import Mathlib

/-!
Verification of the `olog` structured-logging frontend (github.com/pellared/olog).

The development shallowly embeds the attribute composition and emission pipeline of
`logger.go`: the argument encoder `convertArgsToKeyValues`, the logger composition
operations `With` / `WithAttr`, the record-building emission paths `log`, `logAttr`,
`logEvent`, `logEventAttr` together with their public wrappers, the per-severity
enabled checks, and the caller-name heuristic `extractPackageFromFuncName`.

Go pointer-receiver methods are translated with explicit state passing: an emission
method returns the pair of the emission handed to the backend (context token plus
record) and the post-state of the receiver.  Go strings are modelled as `List Char`;
the two functions that scan bytes (`extractPackageFromFuncName`) only compare against
the ASCII characters `'('` and `'.'`, whose bytes never occur inside a multi-byte
UTF-8 character, so the character-level model finds exactly the same separators and
cuts exactly the same prefixes as the byte-level Go code.
-/

set_option maxRecDepth 10000

namespace Olog

/-- Severity mirrors `go.opentelemetry.io/otel/log.Severity`, an ordered integer type. -/
abbrev Severity := Int

def SeverityTrace : Severity := 1

def SeverityDebug : Severity := 5

def SeverityInfo : Severity := 9

def SeverityWarn : Severity := 13

def SeverityError : Severity := 17

/-- The caller-supplied `context.Context`, treated as an opaque correlation token:
the frontend only threads it through to the backend. -/
abbrev GoContext := Nat

/-- A wall-clock instant (`time.Time`), treated as an opaque token supplied by the
caller of the internal logging methods (modelling the `time.Now()` read). -/
abbrev Timestamp := Nat

/-- The backend attribute value `log.Value`.  Only the kinds produced by this
frontend are modelled; `float64` carries the IEEE-754 binary64 bit pattern, which
the frontend never inspects. -/
inductive AttrValue where
  | empty : AttrValue
  | str : String → AttrValue
  | int64 : Int → AttrValue
  | float64 : Nat → AttrValue
  | bool : Bool → AttrValue
deriving DecidableEq

/-- The backend attribute `log.KeyValue`. -/
structure KeyValue where
  Key : String
  Value : AttrValue
deriving DecidableEq

/-- A dynamically-typed Go value (`any`) as passed in an alternating key/value
argument list.  The integer variants carry the numeric value of the corresponding
fixed-width Go integer type; `float32` carries the binary64 bit pattern of its
exactly-widened value; `err` carries the string rendered by the value's `Error()`
method; `other` carries the string rendering of an otherwise unrecognized value. -/
inductive GoValue where
  | str : String → GoValue
  | int : Int → GoValue
  | int8 : Int → GoValue
  | int16 : Int → GoValue
  | int32 : Int → GoValue
  | int64 : Int → GoValue
  | uint : Nat → GoValue
  | uint8 : Nat → GoValue
  | uint16 : Nat → GoValue
  | uint32 : Nat → GoValue
  | uint64 : Nat → GoValue
  | float32 : Nat → GoValue
  | float64 : Nat → GoValue
  | bool : Bool → GoValue
  | err : String → GoValue
  | other : String → GoValue
deriving DecidableEq

/-- Whether a dynamic value is a Go `string` (the successful `args[i].(string)`
type assertion of `convertArgsToKeyValues`). -/
def GoValue.isStr : GoValue → Bool
  | .str _ => true
  | _ => false

/-- Modelled from the spec: `convertValue` is called by `convertArgsToKeyValues`
(logger.go line 412) but its definition is not among the provided sources.
Spec section 4.1 (Value Normalizer): a string maps to itself; any signed or
unsigned fixed-width integer is widened to the canonical 64-bit integer
representation; any floating-point value is widened to a 64-bit float; a boolean
maps to itself; an error-like value maps to its rendered description as a string;
anything else degrades to a string-rendering fallback and never raises. -/
def convertValue : GoValue → AttrValue
  | .str s => .str s
  | .int n => .int64 n
  | .int8 n => .int64 n
  | .int16 n => .int64 n
  | .int32 n => .int64 n
  | .int64 n => .int64 n
  | .uint n => .int64 n
  | .uint8 n => .int64 n
  | .uint16 n => .int64 n
  | .uint32 n => .int64 n
  | .uint64 n => .int64 n
  | .float32 bits => .float64 bits
  | .float64 bits => .float64 bits
  | .bool b => .bool b
  | .err msg => .str msg
  | .other rendered => .str rendered

/-- `convertArgsToKeyValues` (logger.go lines 393-417): walk the alternating
key/value arguments two at a time; a lone trailing element that is a string is
emitted with an empty string value; a pair whose key is not a string is skipped. -/
def convertArgsToKeyValues : List GoValue → List KeyValue
  | [] => []
  | [k] =>
    match k with
    | .str key => [⟨key, .str ""⟩]
    | _ => []
  | k :: v :: rest =>
    match k with
    | .str key => ⟨key, convertValue v⟩ :: convertArgsToKeyValues rest
    | _ => convertArgsToKeyValues rest

/-- `log.EnabledParameters`. -/
structure EnabledParameters where
  severity : Severity
  eventName : String

/-- The embedded backend `log.Logger` handle, abstracted by its observable
enabled-check answer (emission is modelled at the `Emit` boundary below). -/
structure OtelLogger where
  enabled : GoContext → EnabledParameters → Bool

/-- The backend record `log.Record`, restricted to the fields this frontend sets. -/
structure Record where
  body : AttrValue
  eventName : String
  timestamp : Timestamp
  severity : Severity
  attributes : List KeyValue
deriving DecidableEq

/-- The zero value of `var record log.Record`. -/
def Record.zero : Record := ⟨AttrValue.empty, "", 0, 0, []⟩

def Record.SetBody (r : Record) (v : AttrValue) : Record := { r with body := v }

def Record.SetEventName (r : Record) (n : String) : Record := { r with eventName := n }

def Record.SetTimestamp (r : Record) (t : Timestamp) : Record := { r with timestamp := t }

def Record.SetSeverity (r : Record) (s : Severity) : Record := { r with severity := s }

/-- `record.AddAttributes(kvs...)`: append to the record's attribute list. -/
def Record.AddAttributes (r : Record) (kvs : List KeyValue) : Record :=
  { r with attributes := r.attributes ++ kvs }

/-- One emission handed to the backend: the caller-supplied context token and the
assembled record. -/
structure Emission where
  ctx : GoContext
  record : Record

/-- The frontend `Logger`: the embedded backend handle plus the ordered list of
pre-bound attributes. -/
structure Logger where
  backend : OtelLogger
  attrs : List KeyValue

/-- `l.Emit(ctx, record)`: hand the record to the backend together with the
caller-supplied context token (the observable boundary of this core). -/
def Logger.Emit (_l : Logger) (ctx : GoContext) (record : Record) : Emission :=
  ⟨ctx, record⟩

/-- The promoted `Enabled` method of the embedded backend logger. -/
def Logger.Enabled (l : Logger) (ctx : GoContext) (params : EnabledParameters) : Bool :=
  l.backend.enabled ctx params

/-- `addArgsAsAttributes` (logger.go lines 419-423). -/
def addArgsAsAttributes (record : Record) (args : List GoValue) : Record :=
  record.AddAttributes (convertArgsToKeyValues args)

/-- `(*Logger).addAttributes` (logger.go lines 383-390): pre-configured attributes
first, then the call-specific attributes. -/
def Logger.addAttributes (l : Logger) (record : Record) (args : List GoValue) : Record :=
  addArgsAsAttributes (record.AddAttributes l.attrs) args

/-- `(*Logger).addKeyValueAttributes` (logger.go lines 436-442). -/
def Logger.addKeyValueAttributes (l : Logger) (record : Record) (attrs : List KeyValue) : Record :=
  (record.AddAttributes l.attrs).AddAttributes attrs

/-- `(*Logger).log` (logger.go lines 372-381). -/
def Logger.log (l : Logger) (now : Timestamp) (ctx : GoContext) (level : Severity)
    (msg : String) (args : List GoValue) : Emission × Logger :=
  let record := ((Record.zero.SetBody (AttrValue.str msg)).SetTimestamp now).SetSeverity level
  (l.Emit ctx (l.addAttributes record args), l)

/-- `(*Logger).logAttr` (logger.go lines 425-434). -/
def Logger.logAttr (l : Logger) (now : Timestamp) (ctx : GoContext) (level : Severity)
    (msg : String) (attrs : List KeyValue) : Emission × Logger :=
  let record := ((Record.zero.SetBody (AttrValue.str msg)).SetTimestamp now).SetSeverity level
  (l.Emit ctx (l.addKeyValueAttributes record attrs), l)

/-- `(*Logger).logEvent` (logger.go lines 444-453). -/
def Logger.logEvent (l : Logger) (now : Timestamp) (ctx : GoContext) (level : Severity)
    (name : String) (args : List GoValue) : Emission × Logger :=
  let record := ((Record.zero.SetEventName name).SetTimestamp now).SetSeverity level
  (l.Emit ctx (l.addAttributes record args), l)

/-- `(*Logger).logEventAttr` (logger.go lines 455-464). -/
def Logger.logEventAttr (l : Logger) (now : Timestamp) (ctx : GoContext) (level : Severity)
    (name : String) (attrs : List KeyValue) : Emission × Logger :=
  let record := ((Record.zero.SetEventName name).SetTimestamp now).SetSeverity level
  (l.Emit ctx (l.addKeyValueAttributes record attrs), l)

def Logger.Trace (l : Logger) (now : Timestamp) (ctx : GoContext) (msg : String)
    (args : List GoValue) : Emission × Logger :=
  l.log now ctx SeverityTrace msg args

def Logger.Debug (l : Logger) (now : Timestamp) (ctx : GoContext) (msg : String)
    (args : List GoValue) : Emission × Logger :=
  l.log now ctx SeverityDebug msg args

def Logger.Info (l : Logger) (now : Timestamp) (ctx : GoContext) (msg : String)
    (args : List GoValue) : Emission × Logger :=
  l.log now ctx SeverityInfo msg args

def Logger.Warn (l : Logger) (now : Timestamp) (ctx : GoContext) (msg : String)
    (args : List GoValue) : Emission × Logger :=
  l.log now ctx SeverityWarn msg args

def Logger.Error (l : Logger) (now : Timestamp) (ctx : GoContext) (msg : String)
    (args : List GoValue) : Emission × Logger :=
  l.log now ctx SeverityError msg args

def Logger.Log (l : Logger) (now : Timestamp) (ctx : GoContext) (level : Severity)
    (msg : String) (args : List GoValue) : Emission × Logger :=
  l.log now ctx level msg args

def Logger.TraceEvent (l : Logger) (now : Timestamp) (ctx : GoContext) (name : String)
    (args : List GoValue) : Emission × Logger :=
  l.logEvent now ctx SeverityTrace name args

def Logger.DebugEvent (l : Logger) (now : Timestamp) (ctx : GoContext) (name : String)
    (args : List GoValue) : Emission × Logger :=
  l.logEvent now ctx SeverityDebug name args

def Logger.InfoEvent (l : Logger) (now : Timestamp) (ctx : GoContext) (name : String)
    (args : List GoValue) : Emission × Logger :=
  l.logEvent now ctx SeverityInfo name args

def Logger.WarnEvent (l : Logger) (now : Timestamp) (ctx : GoContext) (name : String)
    (args : List GoValue) : Emission × Logger :=
  l.logEvent now ctx SeverityWarn name args

def Logger.ErrorEvent (l : Logger) (now : Timestamp) (ctx : GoContext) (name : String)
    (args : List GoValue) : Emission × Logger :=
  l.logEvent now ctx SeverityError name args

def Logger.Event (l : Logger) (now : Timestamp) (ctx : GoContext) (level : Severity)
    (name : String) (args : List GoValue) : Emission × Logger :=
  l.logEvent now ctx level name args

def Logger.TraceAttrM (l : Logger) (now : Timestamp) (ctx : GoContext) (msg : String)
    (attrs : List KeyValue) : Emission × Logger :=
  l.logAttr now ctx SeverityTrace msg attrs

def Logger.DebugAttrM (l : Logger) (now : Timestamp) (ctx : GoContext) (msg : String)
    (attrs : List KeyValue) : Emission × Logger :=
  l.logAttr now ctx SeverityDebug msg attrs

def Logger.InfoAttrM (l : Logger) (now : Timestamp) (ctx : GoContext) (msg : String)
    (attrs : List KeyValue) : Emission × Logger :=
  l.logAttr now ctx SeverityInfo msg attrs

def Logger.WarnAttrM (l : Logger) (now : Timestamp) (ctx : GoContext) (msg : String)
    (attrs : List KeyValue) : Emission × Logger :=
  l.logAttr now ctx SeverityWarn msg attrs

def Logger.ErrorAttrM (l : Logger) (now : Timestamp) (ctx : GoContext) (msg : String)
    (attrs : List KeyValue) : Emission × Logger :=
  l.logAttr now ctx SeverityError msg attrs

def Logger.LogAttrM (l : Logger) (now : Timestamp) (ctx : GoContext) (level : Severity)
    (msg : String) (attrs : List KeyValue) : Emission × Logger :=
  l.logAttr now ctx level msg attrs

def Logger.TraceEventAttrM (l : Logger) (now : Timestamp) (ctx : GoContext) (name : String)
    (attrs : List KeyValue) : Emission × Logger :=
  l.logEventAttr now ctx SeverityTrace name attrs

def Logger.DebugEventAttrM (l : Logger) (now : Timestamp) (ctx : GoContext) (name : String)
    (attrs : List KeyValue) : Emission × Logger :=
  l.logEventAttr now ctx SeverityDebug name attrs

def Logger.InfoEventAttrM (l : Logger) (now : Timestamp) (ctx : GoContext) (name : String)
    (attrs : List KeyValue) : Emission × Logger :=
  l.logEventAttr now ctx SeverityInfo name attrs

def Logger.WarnEventAttrM (l : Logger) (now : Timestamp) (ctx : GoContext) (name : String)
    (attrs : List KeyValue) : Emission × Logger :=
  l.logEventAttr now ctx SeverityWarn name attrs

def Logger.ErrorEventAttrM (l : Logger) (now : Timestamp) (ctx : GoContext) (name : String)
    (attrs : List KeyValue) : Emission × Logger :=
  l.logEventAttr now ctx SeverityError name attrs

def Logger.EventAttrM (l : Logger) (now : Timestamp) (ctx : GoContext) (level : Severity)
    (name : String) (attrs : List KeyValue) : Emission × Logger :=
  l.logEventAttr now ctx level name attrs

/-- Modelled from the spec: the legacy two-argument event call
`Event(ctx, name string, args ...any)` (CHANGELOG v0.0.1) is exercised by the
repository's tests but its definition is not among the provided sources, which
hold the newer severity-taking `Event`.  Spec section 4.4: a legacy two-argument
form defaulting to Info severity for backward compatibility. -/
def Logger.EventLegacy (l : Logger) (now : Timestamp) (ctx : GoContext) (name : String)
    (args : List GoValue) : Emission × Logger :=
  l.logEvent now ctx SeverityInfo name args

def Logger.TraceEnabled (l : Logger) (ctx : GoContext) : Bool :=
  l.Enabled ctx ⟨SeverityTrace, ""⟩

def Logger.DebugEnabled (l : Logger) (ctx : GoContext) : Bool :=
  l.Enabled ctx ⟨SeverityDebug, ""⟩

def Logger.InfoEnabled (l : Logger) (ctx : GoContext) : Bool :=
  l.Enabled ctx ⟨SeverityInfo, ""⟩

def Logger.WarnEnabled (l : Logger) (ctx : GoContext) : Bool :=
  l.Enabled ctx ⟨SeverityWarn, ""⟩

def Logger.ErrorEnabled (l : Logger) (ctx : GoContext) : Bool :=
  l.Enabled ctx ⟨SeverityError, ""⟩

def Logger.TraceEventEnabled (l : Logger) (ctx : GoContext) (eventName : String) : Bool :=
  l.Enabled ctx ⟨SeverityTrace, eventName⟩

def Logger.DebugEventEnabled (l : Logger) (ctx : GoContext) (eventName : String) : Bool :=
  l.Enabled ctx ⟨SeverityDebug, eventName⟩

def Logger.InfoEventEnabled (l : Logger) (ctx : GoContext) (eventName : String) : Bool :=
  l.Enabled ctx ⟨SeverityInfo, eventName⟩

def Logger.WarnEventEnabled (l : Logger) (ctx : GoContext) (eventName : String) : Bool :=
  l.Enabled ctx ⟨SeverityWarn, eventName⟩

def Logger.ErrorEventEnabled (l : Logger) (ctx : GoContext) (eventName : String) : Bool :=
  l.Enabled ctx ⟨SeverityError, eventName⟩

/-- `(*Logger).WithAttr` (logger.go lines 343-354): a new logger whose list is the
receiver's list followed by the new typed attributes; the receiver is not written. -/
def Logger.WithAttr (l : Logger) (attrs : List KeyValue) : Logger :=
  ⟨l.backend, l.attrs ++ attrs⟩

/-- `(*Logger).With` (logger.go lines 356-370): encode the arguments, then append
them to the receiver's list in a freshly allocated combined list. -/
def Logger.With (l : Logger) (args : List GoValue) : Logger :=
  ⟨l.backend, l.attrs ++ convertArgsToKeyValues args⟩

/-- A backend whose enabled-check accepts everything (used for concrete instances). -/
def noopBackend : OtelLogger := ⟨fun _ _ => true⟩

/-- A freshly constructed logger with an empty pre-bound attribute list. -/
def baseLogger : Logger := ⟨noopBackend, []⟩

/-- The backend of `TestLogger_EnabledMethod`: enabled only at severity at least Info
(`param.Severity >= log.SeverityInfo`). -/
def geInfoBackend : OtelLogger := ⟨fun _ params => decide (SeverityInfo ≤ params.severity)⟩

/-- A logger over `geInfoBackend`. -/
def geInfoLogger : Logger := ⟨geInfoBackend, []⟩

/-- The byte position of the first `'('` of `extractPackageFromFuncName`
(logger.go lines 86-93); character positions coincide with byte positions for the
two ASCII separators scanned here (see the file header). -/
def parenPosOf (funcName : List Char) : Option Nat :=
  funcName.findIdx? (fun r => r == '(')

/-- `searchEnd` of `extractPackageFromFuncName` (logger.go lines 95-99). -/
def searchEndOf (funcName : List Char) : Nat :=
  match parenPosOf funcName with
  | some p => p
  | none => funcName.length

/-- `lastDot` of `extractPackageFromFuncName` (logger.go lines 101-106): the loop
keeps the index of the most recently seen `'.'` strictly below `searchEnd`. -/
def lastDotOf (funcName : List Char) : Option Nat :=
  (List.range (searchEndOf funcName)).foldl
    (fun lastDot i => if funcName.getD i ' ' == '.' then some i else lastDot) none

/-- `extractPackageFromFuncName` (logger.go lines 81-114). -/
def extractPackageFromFuncName (funcName : List Char) : List Char :=
  match lastDotOf funcName with
  | some d => funcName.take d
  | none => []

/-- Decidable guard: position `d` holds the last `'.'` before the search end of `s`. -/
def isLastDotBefore (s : List Char) (d : Nat) : Bool :=
  decide (d < searchEndOf s) && (s.getD d ' ' == '.') &&
    (List.range (searchEndOf s)).all (fun j => decide (j ≤ d) || !(s.getD j ' ' == '.'))

/-- Decidable guard: no `'.'` occurs before the search end of `s`. -/
def noDotBefore (s : List Char) : Bool :=
  (List.range (searchEndOf s)).all (fun j => !(s.getD j ' ' == '.'))

/-- The input chunked into (key, optional value) pairs, following the spec's
section 4.2 description of the walk ("two elements at a time"). -/
def chunkPairs : List GoValue → List (GoValue × Option GoValue)
  | [] => []
  | [k] => [(k, none)]
  | k :: v :: rest => (k, some v) :: chunkPairs rest

/-- The spec's per-pair rule (section 4.2, stated from the spec's words for
comparison with the source encoder): a string key with a value is normalized and
kept, a dangling string key is paired with an empty string value, and a pair
whose key is not a string is dropped. -/
def encodePairSpec : GoValue × Option GoValue → Option KeyValue
  | (GoValue.str key, some v) => some ⟨key, convertValue v⟩
  | (GoValue.str key, none) => some ⟨key, AttrValue.str ""⟩
  | _ => none

/-- What the encoder contributes for the dangling last element of an odd-length
input: an empty-string-valued attribute for a string, nothing otherwise. -/
def danglingOutput : GoValue → List KeyValue
  | .str k => [⟨k, AttrValue.str ""⟩]
  | _ => []

theorem convert_eq_filterMap :
    ∀ args : List GoValue,
      convertArgsToKeyValues args = (chunkPairs args).filterMap encodePairSpec
  | [] => rfl
  | [k] => by cases k <;> rfl
  | k :: v :: rest => by
    have ih := convert_eq_filterMap rest
    cases k <;> simp [convertArgsToKeyValues, chunkPairs, encodePairSpec, ih]

theorem chunkPairs_length :
    ∀ args : List GoValue, (chunkPairs args).length = (args.length + 1) / 2
  | [] => rfl
  | [k] => by simp [chunkPairs]
  | k :: v :: rest => by
    have ih := chunkPairs_length rest
    simp only [chunkPairs, List.length_cons, ih]
    omega

theorem convert_append_even :
    ∀ (a b : List GoValue), a.length % 2 = 0 →
      convertArgsToKeyValues (a ++ b) = convertArgsToKeyValues a ++ convertArgsToKeyValues b
  | [], b => fun _ => rfl
  | [x], b => fun h => by simp at h
  | k :: v :: rest, b => fun h => by
    have hr : rest.length % 2 = 0 := by
      simp only [List.length_cons] at h
      omega
    have ih := convert_append_even rest b hr
    cases k <;> simp [convertArgsToKeyValues, List.cons_append, ih]

theorem convert_odd_last :
    ∀ (args : List GoValue) (v : GoValue), args.length % 2 = 1 →
      args.getLast? = some v →
      convertArgsToKeyValues args =
        convertArgsToKeyValues args.dropLast ++ danglingOutput v
  | [], v => fun h _ => by simp at h
  | [x], v => fun _ hl => by
    rw [List.getLast?_singleton] at hl
    injection hl with hxv
    subst hxv
    cases x <;> rfl
  | a :: b :: rest, v => fun h hl => by
    have hr : rest.length % 2 = 1 := by
      simp only [List.length_cons] at h
      omega
    match rest, hr, hl with
    | c :: rest2, hr, hl =>
      have hl2 : (c :: rest2).getLast? = some v := by
        rw [List.getLast?_cons_cons, List.getLast?_cons_cons] at hl
        exact hl
      have ih := convert_odd_last (c :: rest2) v hr hl2
      have hdrop : (a :: b :: c :: rest2).dropLast = a :: b :: (c :: rest2).dropLast := rfl
      rw [hdrop]
      cases a <;> simp [convertArgsToKeyValues, ih]

theorem foldl_lastHit_none (p : Nat → Bool) :
    ∀ (n : Nat) (acc : Option Nat), (∀ j, j < n → p j = false) →
      (List.range n).foldl (fun a i => if p i then some i else a) acc = acc := by
  intro n
  induction n with
  | zero => intro acc _; rfl
  | succ m ih =>
    intro acc h
    rw [List.range_succ, List.foldl_append]
    simp only [List.foldl_cons, List.foldl_nil, h m (Nat.lt_succ_self m), Bool.false_eq_true,
      if_false]
    exact ih acc (fun j hj => h j (Nat.lt_succ_of_lt hj))

theorem foldl_lastHit_some (p : Nat → Bool) :
    ∀ (n : Nat) (acc : Option Nat) (d : Nat), d < n → p d = true →
      (∀ j, d < j → j < n → p j = false) →
      (List.range n).foldl (fun a i => if p i then some i else a) acc = some d := by
  intro n
  induction n with
  | zero => intro acc d hd _ _; exact absurd hd (Nat.not_lt_zero d)
  | succ m ih =>
    intro acc d hdn hpd hafter
    rw [List.range_succ, List.foldl_append]
    simp only [List.foldl_cons, List.foldl_nil]
    by_cases hdm : d = m
    · subst hdm
      simp [hpd]
    · have hdm2 : d < m := Nat.lt_of_le_of_ne (Nat.le_of_lt_succ hdn) hdm
      have hpm : p m = false := hafter m hdm2 (Nat.lt_succ_self m)
      simp only [hpm, Bool.false_eq_true, if_false]
      exact ih acc d hdm2 hpd (fun j h1 h2 => hafter j h1 (Nat.lt_succ_of_lt h2))

theorem lastDotOf_eq_some (s : List Char) (d : Nat) (h1 : d < searchEndOf s)
    (h2 : (s.getD d ' ' == '.') = true)
    (h3 : ∀ j, d < j → j < searchEndOf s → (s.getD j ' ' == '.') = false) :
    lastDotOf s = some d :=
  foldl_lastHit_some (fun i => s.getD i ' ' == '.') (searchEndOf s) none d h1 h2 h3

theorem lastDotOf_eq_none (s : List Char)
    (h : ∀ j, j < searchEndOf s → (s.getD j ' ' == '.') = false) :
    lastDotOf s = none :=
  foldl_lastHit_none (fun i => s.getD i ' ' == '.') (searchEndOf s) none h

/-- C1: for every logger and every logging or event call, argument-based or
attribute-based, the attribute sequence of the emitted record is exactly the
logger's pre-bound attributes (oldest first) followed by the call-specific
attributes in call order (for argument-based calls, the encoded arguments). -/
theorem record_attribute_order :
    ∀ (l : Logger) (now : Timestamp) (ctx : GoContext) (level : Severity)
      (msg name : String) (args : List GoValue) (attrs : List KeyValue),
      (l.Trace now ctx msg args).1.record.attributes
          = l.attrs ++ convertArgsToKeyValues args ∧
      (l.Debug now ctx msg args).1.record.attributes
          = l.attrs ++ convertArgsToKeyValues args ∧
      (l.Info now ctx msg args).1.record.attributes
          = l.attrs ++ convertArgsToKeyValues args ∧
      (l.Warn now ctx msg args).1.record.attributes
          = l.attrs ++ convertArgsToKeyValues args ∧
      (l.Error now ctx msg args).1.record.attributes
          = l.attrs ++ convertArgsToKeyValues args ∧
      (l.Log now ctx level msg args).1.record.attributes
          = l.attrs ++ convertArgsToKeyValues args ∧
      (l.TraceEvent now ctx name args).1.record.attributes
          = l.attrs ++ convertArgsToKeyValues args ∧
      (l.DebugEvent now ctx name args).1.record.attributes
          = l.attrs ++ convertArgsToKeyValues args ∧
      (l.InfoEvent now ctx name args).1.record.attributes
          = l.attrs ++ convertArgsToKeyValues args ∧
      (l.WarnEvent now ctx name args).1.record.attributes
          = l.attrs ++ convertArgsToKeyValues args ∧
      (l.ErrorEvent now ctx name args).1.record.attributes
          = l.attrs ++ convertArgsToKeyValues args ∧
      (l.Event now ctx level name args).1.record.attributes
          = l.attrs ++ convertArgsToKeyValues args ∧
      (l.EventLegacy now ctx name args).1.record.attributes
          = l.attrs ++ convertArgsToKeyValues args ∧
      (l.TraceAttrM now ctx msg attrs).1.record.attributes = l.attrs ++ attrs ∧
      (l.DebugAttrM now ctx msg attrs).1.record.attributes = l.attrs ++ attrs ∧
      (l.InfoAttrM now ctx msg attrs).1.record.attributes = l.attrs ++ attrs ∧
      (l.WarnAttrM now ctx msg attrs).1.record.attributes = l.attrs ++ attrs ∧
      (l.ErrorAttrM now ctx msg attrs).1.record.attributes = l.attrs ++ attrs ∧
      (l.LogAttrM now ctx level msg attrs).1.record.attributes = l.attrs ++ attrs ∧
      (l.TraceEventAttrM now ctx name attrs).1.record.attributes = l.attrs ++ attrs ∧
      (l.DebugEventAttrM now ctx name attrs).1.record.attributes = l.attrs ++ attrs ∧
      (l.InfoEventAttrM now ctx name attrs).1.record.attributes = l.attrs ++ attrs ∧
      (l.WarnEventAttrM now ctx name attrs).1.record.attributes = l.attrs ++ attrs ∧
      (l.ErrorEventAttrM now ctx name attrs).1.record.attributes = l.attrs ++ attrs ∧
      (l.EventAttrM now ctx level name attrs).1.record.attributes = l.attrs ++ attrs :=
  fun _ _ _ _ _ _ _ _ =>
    ⟨rfl, rfl, rfl, rfl, rfl, rfl, rfl, rfl, rfl, rfl, rfl, rfl, rfl,
     rfl, rfl, rfl, rfl, rfl, rfl, rfl, rfl, rfl, rfl, rfl, rfl⟩

/-- C4: every event-kind record carries the severity of its call: the severity
field of the record built by every event method equals the method's severity,
and the legacy two-argument event call emits at exactly Info severity. -/
theorem event_records_carry_severity :
    ∀ (l : Logger) (now : Timestamp) (ctx : GoContext) (level : Severity)
      (name : String) (args : List GoValue) (attrs : List KeyValue),
      (l.TraceEvent now ctx name args).1.record.severity = SeverityTrace ∧
      (l.DebugEvent now ctx name args).1.record.severity = SeverityDebug ∧
      (l.InfoEvent now ctx name args).1.record.severity = SeverityInfo ∧
      (l.WarnEvent now ctx name args).1.record.severity = SeverityWarn ∧
      (l.ErrorEvent now ctx name args).1.record.severity = SeverityError ∧
      (l.Event now ctx level name args).1.record.severity = level ∧
      (l.TraceEventAttrM now ctx name attrs).1.record.severity = SeverityTrace ∧
      (l.DebugEventAttrM now ctx name attrs).1.record.severity = SeverityDebug ∧
      (l.InfoEventAttrM now ctx name attrs).1.record.severity = SeverityInfo ∧
      (l.WarnEventAttrM now ctx name attrs).1.record.severity = SeverityWarn ∧
      (l.ErrorEventAttrM now ctx name attrs).1.record.severity = SeverityError ∧
      (l.EventAttrM now ctx level name attrs).1.record.severity = level ∧
      (l.logEvent now ctx level name args).1.record.severity = level ∧
      (l.logEventAttr now ctx level name attrs).1.record.severity = level ∧
      (l.EventLegacy now ctx name args).1.record.severity = SeverityInfo :=
  fun _ _ _ _ _ _ _ =>
    ⟨rfl, rfl, rfl, rfl, rfl, rfl, rfl, rfl, rfl, rfl, rfl, rfl, rfl, rfl, rfl⟩

/-- C5: the value normalizer is total (a Lean function by construction, so no
input can raise) and maps each accepted value to exactly one attribute value:
strings to themselves, every fixed-width integer widened to the 64-bit integer
representation, every float widened to a 64-bit float, booleans to themselves,
error-like values to their rendered description string, and unrecognized values
to a string-rendering fallback. -/
theorem convertValue_mapping :
    ∀ (s : String) (n : Int) (m bits : Nat) (b : Bool),
      convertValue (GoValue.str s) = AttrValue.str s ∧
      convertValue (GoValue.int n) = AttrValue.int64 n ∧
      convertValue (GoValue.int8 n) = AttrValue.int64 n ∧
      convertValue (GoValue.int16 n) = AttrValue.int64 n ∧
      convertValue (GoValue.int32 n) = AttrValue.int64 n ∧
      convertValue (GoValue.int64 n) = AttrValue.int64 n ∧
      convertValue (GoValue.uint m) = AttrValue.int64 m ∧
      convertValue (GoValue.uint8 m) = AttrValue.int64 m ∧
      convertValue (GoValue.uint16 m) = AttrValue.int64 m ∧
      convertValue (GoValue.uint32 m) = AttrValue.int64 m ∧
      convertValue (GoValue.uint64 m) = AttrValue.int64 m ∧
      convertValue (GoValue.float32 bits) = AttrValue.float64 bits ∧
      convertValue (GoValue.float64 bits) = AttrValue.float64 bits ∧
      convertValue (GoValue.bool b) = AttrValue.bool b ∧
      convertValue (GoValue.err s) = AttrValue.str s ∧
      convertValue (GoValue.other s) = AttrValue.str s :=
  fun _ _ _ _ _ =>
    ⟨rfl, rfl, rfl, rfl, rfl, rfl, rfl, rfl, rfl, rfl, rfl, rfl, rfl, rfl, rfl, rfl⟩

/-- C7: each per-severity enabled check returns the backend's answer for that
severity unmodified (it is a pure function of the backend's answer, hence
side-effect free), and on a backend enabled exactly at severity at least Info,
`DebugEnabled` returns false while `WarnEnabled` returns true. -/
theorem enabled_checks_delegate :
    (∀ (l : Logger) (ctx : GoContext) (eventName : String),
      l.TraceEnabled ctx = l.backend.enabled ctx ⟨SeverityTrace, ""⟩ ∧
      l.DebugEnabled ctx = l.backend.enabled ctx ⟨SeverityDebug, ""⟩ ∧
      l.InfoEnabled ctx = l.backend.enabled ctx ⟨SeverityInfo, ""⟩ ∧
      l.WarnEnabled ctx = l.backend.enabled ctx ⟨SeverityWarn, ""⟩ ∧
      l.ErrorEnabled ctx = l.backend.enabled ctx ⟨SeverityError, ""⟩ ∧
      l.TraceEventEnabled ctx eventName = l.backend.enabled ctx ⟨SeverityTrace, eventName⟩ ∧
      l.DebugEventEnabled ctx eventName = l.backend.enabled ctx ⟨SeverityDebug, eventName⟩ ∧
      l.InfoEventEnabled ctx eventName = l.backend.enabled ctx ⟨SeverityInfo, eventName⟩ ∧
      l.WarnEventEnabled ctx eventName = l.backend.enabled ctx ⟨SeverityWarn, eventName⟩ ∧
      l.ErrorEventEnabled ctx eventName = l.backend.enabled ctx ⟨SeverityError, eventName⟩) ∧
    geInfoLogger.DebugEnabled 0 = false ∧
    geInfoLogger.WarnEnabled 0 = true :=
  ⟨fun _ _ _ => ⟨rfl, rfl, rfl, rfl, rfl, rfl, rfl, rfl, rfl, rfl⟩,
   by decide, by decide⟩

/-- C9: every logging and event-emission call hands the caller-supplied context
token to the backend's emission entry point unmodified, and leaves the receiver
logger, in particular its pre-bound attribute list, unchanged (the post-state of
the pointer receiver equals its pre-state). -/
theorem emission_threads_context :
    ∀ (l : Logger) (now : Timestamp) (ctx : GoContext) (level : Severity)
      (msg name : String) (args : List GoValue) (attrs : List KeyValue),
      (l.log now ctx level msg args).1.ctx = ctx ∧
      (l.log now ctx level msg args).2 = l ∧
      (l.logAttr now ctx level msg attrs).1.ctx = ctx ∧
      (l.logAttr now ctx level msg attrs).2 = l ∧
      (l.logEvent now ctx level name args).1.ctx = ctx ∧
      (l.logEvent now ctx level name args).2 = l ∧
      (l.logEventAttr now ctx level name attrs).1.ctx = ctx ∧
      (l.logEventAttr now ctx level name attrs).2 = l ∧
      (l.Trace now ctx msg args).1.ctx = ctx ∧
      (l.Trace now ctx msg args).2 = l ∧
      (l.Debug now ctx msg args).1.ctx = ctx ∧
      (l.Debug now ctx msg args).2 = l ∧
      (l.Info now ctx msg args).1.ctx = ctx ∧
      (l.Info now ctx msg args).2 = l ∧
      (l.Warn now ctx msg args).1.ctx = ctx ∧
      (l.Warn now ctx msg args).2 = l ∧
      (l.Error now ctx msg args).1.ctx = ctx ∧
      (l.Error now ctx msg args).2 = l ∧
      (l.Log now ctx level msg args).1.ctx = ctx ∧
      (l.Log now ctx level msg args).2 = l ∧
      (l.TraceEvent now ctx name args).1.ctx = ctx ∧
      (l.TraceEvent now ctx name args).2 = l ∧
      (l.DebugEvent now ctx name args).1.ctx = ctx ∧
      (l.DebugEvent now ctx name args).2 = l ∧
      (l.InfoEvent now ctx name args).1.ctx = ctx ∧
      (l.InfoEvent now ctx name args).2 = l ∧
      (l.WarnEvent now ctx name args).1.ctx = ctx ∧
      (l.WarnEvent now ctx name args).2 = l ∧
      (l.ErrorEvent now ctx name args).1.ctx = ctx ∧
      (l.ErrorEvent now ctx name args).2 = l ∧
      (l.Event now ctx level name args).1.ctx = ctx ∧
      (l.Event now ctx level name args).2 = l ∧
      (l.EventLegacy now ctx name args).1.ctx = ctx ∧
      (l.EventLegacy now ctx name args).2 = l ∧
      (l.TraceAttrM now ctx msg attrs).1.ctx = ctx ∧
      (l.TraceAttrM now ctx msg attrs).2 = l ∧
      (l.DebugAttrM now ctx msg attrs).1.ctx = ctx ∧
      (l.DebugAttrM now ctx msg attrs).2 = l ∧
      (l.InfoAttrM now ctx msg attrs).1.ctx = ctx ∧
      (l.InfoAttrM now ctx msg attrs).2 = l ∧
      (l.WarnAttrM now ctx msg attrs).1.ctx = ctx ∧
      (l.WarnAttrM now ctx msg attrs).2 = l ∧
      (l.ErrorAttrM now ctx msg attrs).1.ctx = ctx ∧
      (l.ErrorAttrM now ctx msg attrs).2 = l ∧
      (l.LogAttrM now ctx level msg attrs).1.ctx = ctx ∧
      (l.LogAttrM now ctx level msg attrs).2 = l ∧
      (l.TraceEventAttrM now ctx name attrs).1.ctx = ctx ∧
      (l.TraceEventAttrM now ctx name attrs).2 = l ∧
      (l.DebugEventAttrM now ctx name attrs).1.ctx = ctx ∧
      (l.DebugEventAttrM now ctx name attrs).2 = l ∧
      (l.InfoEventAttrM now ctx name attrs).1.ctx = ctx ∧
      (l.InfoEventAttrM now ctx name attrs).2 = l ∧
      (l.WarnEventAttrM now ctx name attrs).1.ctx = ctx ∧
      (l.WarnEventAttrM now ctx name attrs).2 = l ∧
      (l.ErrorEventAttrM now ctx name attrs).1.ctx = ctx ∧
      (l.ErrorEventAttrM now ctx name attrs).2 = l ∧
      (l.EventAttrM now ctx level name attrs).1.ctx = ctx ∧
      (l.EventAttrM now ctx level name attrs).2 = l :=
  fun _ _ _ _ _ _ _ _ =>
    ⟨rfl, rfl, rfl, rfl, rfl, rfl, rfl, rfl, rfl, rfl, rfl, rfl, rfl, rfl, rfl,
     rfl, rfl, rfl, rfl, rfl, rfl, rfl, rfl, rfl, rfl, rfl, rfl, rfl, rfl, rfl,
     rfl, rfl, rfl, rfl, rfl, rfl, rfl, rfl, rfl, rfl, rfl, rfl, rfl, rfl, rfl,
     rfl, rfl, rfl, rfl, rfl, rfl, rfl, rfl, rfl, rfl, rfl, rfl, rfl⟩

/-- C2, counterexample: for the odd-length first sequence `["k"]` the chained
`With` differs from the single flattened `With`: chaining encodes the dangling
key `"k"` with an empty value, while the flattened call pairs `"k"` with `"j"`. -/
theorem with_composition_counterexample :
    ((baseLogger.With [GoValue.str "k"]).With [GoValue.str "j"]).attrs ≠
      (baseLogger.With ([GoValue.str "k"] ++ [GoValue.str "j"])).attrs := by
  decide

/-- C2, amended: provided the first argument sequence has even length (a complete
alternating sequence), `base.With(a).With(b)` has the pre-bound list of
`base.With(a ++ b)`, namely base's list followed by encoded `a` then encoded `b`;
a `With` call only appends to the receiver's list and returns a new logger, and
`WithAttr` composes by list append unconditionally. -/
theorem with_composition_assoc (l : Logger) (a b : List GoValue)
    (ta tb : List KeyValue) (h : a.length % 2 = 0) :
    ((l.With a).With b).attrs = (l.With (a ++ b)).attrs ∧
    ((l.With a).With b).attrs
        = l.attrs ++ (convertArgsToKeyValues a ++ convertArgsToKeyValues b) ∧
    (l.With a).attrs = l.attrs ++ convertArgsToKeyValues a ∧
    ((l.WithAttr ta).WithAttr tb).attrs = (l.WithAttr (ta ++ tb)).attrs := by
  refine ⟨?_, ?_, rfl, ?_⟩
  · show (l.attrs ++ convertArgsToKeyValues a) ++ convertArgsToKeyValues b
        = l.attrs ++ convertArgsToKeyValues (a ++ b)
    rw [convert_append_even a b h, List.append_assoc]
  · show (l.attrs ++ convertArgsToKeyValues a) ++ convertArgsToKeyValues b
        = l.attrs ++ (convertArgsToKeyValues a ++ convertArgsToKeyValues b)
    rw [List.append_assoc]
  · show (l.attrs ++ ta) ++ tb = l.attrs ++ (ta ++ tb)
    rw [List.append_assoc]

theorem with_composition_assoc_witness :
    ([GoValue.str "s", GoValue.str "v"].length % 2 = 0) ∧
    ((baseLogger.With [GoValue.str "s", GoValue.str "v"]).With [GoValue.str "x"]).attrs
        = (baseLogger.With ([GoValue.str "s", GoValue.str "v"] ++ [GoValue.str "x"])).attrs :=
  ⟨by decide,
   (with_composition_assoc baseLogger [GoValue.str "s", GoValue.str "v"]
      [GoValue.str "x"] [] [] (by decide)).1⟩

/-- C3: for every odd-length alternating argument sequence whose dangling final
key is a string, the encoder emits that key paired with the empty string value
after the encoding of the remaining even-length front — the dangling key is never
dropped, and the encoder is a total function, so no error is raised. -/
theorem odd_dangling_string_emitted (args : List GoValue) (k : String)
    (hodd : args.length % 2 = 1)
    (hlast : args.getLast? = some (GoValue.str k)) :
    convertArgsToKeyValues args
      = convertArgsToKeyValues args.dropLast ++ [⟨k, AttrValue.str ""⟩] := by
  have h := convert_odd_last args (GoValue.str k) hodd hlast
  simpa [danglingOutput] using h

theorem odd_dangling_string_emitted_witness :
    ([GoValue.str "key1", GoValue.str "value1", GoValue.str "key2"].length % 2 = 1) ∧
    ([GoValue.str "key1", GoValue.str "value1", GoValue.str "key2"].getLast?
        = some (GoValue.str "key2")) ∧
    convertArgsToKeyValues [GoValue.str "key1", GoValue.str "value1", GoValue.str "key2"]
      = convertArgsToKeyValues
          [GoValue.str "key1", GoValue.str "value1", GoValue.str "key2"].dropLast
        ++ [⟨"key2", AttrValue.str ""⟩] :=
  ⟨by decide, by decide,
   odd_dangling_string_emitted [GoValue.str "key1", GoValue.str "value1", GoValue.str "key2"]
     "key2" (by decide) (by decide)⟩

/-- C10: for every odd-length alternating argument sequence whose dangling final
element is not a string, the encoder emits no attribute for that element at all:
the output is exactly the encoding of the even-length front. -/
theorem odd_dangling_nonstring_dropped (args : List GoValue) (v : GoValue)
    (hodd : args.length % 2 = 1) (hlast : args.getLast? = some v)
    (hns : v.isStr = false) :
    convertArgsToKeyValues args = convertArgsToKeyValues args.dropLast := by
  have h := convert_odd_last args v hodd hlast
  have hd : danglingOutput v = [] := by
    cases v
    case str s => simp [GoValue.isStr] at hns
    all_goals rfl
  rw [hd, List.append_nil] at h
  exact h

theorem odd_dangling_nonstring_dropped_witness :
    ([GoValue.str "key1", GoValue.str "value1", GoValue.int 5].length % 2 = 1) ∧
    ([GoValue.str "key1", GoValue.str "value1", GoValue.int 5].getLast?
        = some (GoValue.int 5)) ∧
    ((GoValue.int 5).isStr = false) ∧
    convertArgsToKeyValues [GoValue.str "key1", GoValue.str "value1", GoValue.int 5]
      = convertArgsToKeyValues
          [GoValue.str "key1", GoValue.str "value1", GoValue.int 5].dropLast :=
  ⟨by decide, by decide, by decide,
   odd_dangling_nonstring_dropped [GoValue.str "key1", GoValue.str "value1", GoValue.int 5]
     (GoValue.int 5) (by decide) (by decide) (by decide)⟩

/-- C6: the encoder equals the spec's pair-wise rule: chunk the input two at a
time and keep, in encounter order, exactly the pairs with string keys (a pair
whose key is not a string contributes nothing); consequently the output length is
at most the ceiling of half the input length. -/
theorem encoder_pairwise_characterization :
    ∀ args : List GoValue,
      convertArgsToKeyValues args = (chunkPairs args).filterMap encodePairSpec ∧
      (convertArgsToKeyValues args).length ≤ (args.length + 1) / 2 :=
  fun args =>
    ⟨convert_eq_filterMap args, by
      rw [convert_eq_filterMap args, ← chunkPairs_length args]
      exact List.length_filterMap_le encodePairSpec (chunkPairs args)⟩

/-- C8: the namespace extraction returns the characters before the last `'.'`
occurring before the first `'('` (or before the end of the identifier when no
parenthesis exists), the empty string when no such separator exists, and in
particular maps `"github.com/x/y.(*Type).Method"` to `"github.com/x/y"` and
`"noSeparator"` to the empty string. -/
theorem extractPackage_characterization :
    (∀ (s : List Char) (d : Nat), isLastDotBefore s d = true →
        extractPackageFromFuncName s = s.take d) ∧
    (∀ s : List Char, noDotBefore s = true → extractPackageFromFuncName s = []) ∧
    extractPackageFromFuncName "github.com/x/y.(*Type).Method".data
        = "github.com/x/y".data ∧
    extractPackageFromFuncName "noSeparator".data = [] := by
  refine ⟨?_, ?_, by decide, by decide⟩
  · intro s d h
    rw [isLastDotBefore, Bool.and_eq_true, Bool.and_eq_true] at h
    obtain ⟨⟨h1, h2⟩, h3⟩ := h
    have h3x : ∀ j, d < j → j < searchEndOf s → (s.getD j ' ' == '.') = false := by
      intro j hdj hjn
      have hj := List.all_eq_true.mp h3 j (List.mem_range.mpr hjn)
      rcases (Bool.or_eq_true _ _).mp hj with hle | hnot
      · exact absurd (of_decide_eq_true hle) (Nat.not_le.mpr hdj)
      · simpa using hnot
    rw [extractPackageFromFuncName, lastDotOf_eq_some s d (of_decide_eq_true h1) h2 h3x]
  · intro s h
    have hx : ∀ j, j < searchEndOf s → (s.getD j ' ' == '.') = false := by
      intro j hjn
      have hj := List.all_eq_true.mp h j (List.mem_range.mpr hjn)
      simpa using hj
    rw [extractPackageFromFuncName, lastDotOf_eq_none s hx]

theorem extractPackage_characterization_witness :
    isLastDotBefore "github.com/x/y.(*Type).Method".data 14 = true ∧
    extractPackageFromFuncName "github.com/x/y.(*Type).Method".data
        = "github.com/x/y.(*Type).Method".data.take 14 :=
  ⟨by decide,
   extractPackage_characterization.1 "github.com/x/y.(*Type).Method".data 14 (by decide)⟩

end Olog
